import Mathlib

/-!
Shallow embedding of the pytrakt HTTP client layer (`src/trakt/api.py`),
together with proofs about its dispatch / decode / error-mapping pipeline.

The embedding covers `HttpClient.request`, the verb helpers `get`, `post`,
`put`, `delete`, `set_auth`, `decode_response`, `raise_if_needed` and the
`error_map` construction.  Python library functions used by that code
(`json.dumps`, `json.loads`, `bytes.decode('UTF-8', 'ignore')`, dict
comprehension semantics) are modelled as executable Lean functions.
-/

namespace PyTrakt

/-- Model of a Python value handled by the `json` module: null, booleans,
numbers (kept as their literal text, so no floating point arithmetic is
interpreted), strings, lists and dicts (as ordered association lists). -/
inductive Json where
  | null : Json
  | bool (b : Bool) : Json
  | num (lit : String) : Json
  | str (s : String) : Json
  | arr (items : List Json) : Json
  | obj (fields : List (String × Json)) : Json
deriving Repr

/-- Hex digit for a value below 16, as used by the serializer's
ensure-ascii escapes. -/
def hexDigit (n : Nat) : Char :=
  if n < 10 then Char.ofNat (48 + n) else Char.ofNat (97 + (n - 10))

/-- Four-digit hexadecimal rendering of a code point, for a JSON
backslash-u escape. -/
def hex4 (n : Nat) : String :=
  String.mk [hexDigit (n / 4096 % 16), hexDigit (n / 256 % 16),
             hexDigit (n / 16 % 16), hexDigit (n % 16)]

/-- Escape one character of a JSON string the way Python
`json.dumps` (defaults: ensure_ascii=True) does. -/
def escapeChar (c : Char) : String :=
  if c = Char.ofNat 34 then String.mk [Char.ofNat 92, Char.ofNat 34]
  else if c = Char.ofNat 92 then String.mk [Char.ofNat 92, Char.ofNat 92]
  else if c = Char.ofNat 10 then String.mk [Char.ofNat 92, Char.ofNat 110]
  else if c = Char.ofNat 9 then String.mk [Char.ofNat 92, Char.ofNat 116]
  else if c = Char.ofNat 13 then String.mk [Char.ofNat 92, Char.ofNat 114]
  else if c = Char.ofNat 8 then String.mk [Char.ofNat 92, Char.ofNat 98]
  else if c = Char.ofNat 12 then String.mk [Char.ofNat 92, Char.ofNat 102]
  else if c.val < 32 ∨ 127 ≤ c.val then
    String.mk [Char.ofNat 92, Char.ofNat 117] ++ hex4 c.toNat
  else String.mk [c]

/-- Escape a whole JSON string body (without the surrounding quotes). -/
def escapeString (s : String) : String :=
  String.join (s.toList.map escapeChar)

mutual

/-- Model of Python `json.dumps` on a single value, with the default
separators (`, ` between items, `: ` after keys) and ensure_ascii escapes. -/
def dumpsVal : Json → String
  | .null => "null"
  | .bool true => "true"
  | .bool false => "false"
  | .num lit => lit
  | .str s => String.mk [Char.ofNat 34] ++ escapeString s ++ String.mk [Char.ofNat 34]
  | .arr items => "[" ++ dumpsItems items ++ "]"
  | .obj fields => "\x7b" ++ dumpsFields fields ++ "\x7d"

/-- Serialize list items, separated by `, `. -/
def dumpsItems : List Json → String
  | [] => ""
  | [v] => dumpsVal v
  | v :: rest => dumpsVal v ++ ", " ++ dumpsItems rest

/-- Serialize dict fields, `"key": value`, separated by `, `. -/
def dumpsFields : List (String × Json) → String
  | [] => ""
  | [(k, v)] =>
      String.mk [Char.ofNat 34] ++ escapeString k ++ String.mk [Char.ofNat 34]
        ++ ": " ++ dumpsVal v
  | (k, v) :: rest =>
      String.mk [Char.ofNat 34] ++ escapeString k ++ String.mk [Char.ofNat 34]
        ++ ": " ++ dumpsVal v ++ ", " ++ dumpsFields rest

end

/-- Model of Python `json.dumps(data)` where `data` is the optional payload
of `HttpClient.request`; Python `None` serializes to the text `null`. -/
def json_dumps : Option Json → String
  | none => "null"
  | some v => dumpsVal v

/-- An error kind declared in the `trakt.errors` module.

Modelled from the spec: the `trakt/errors.py` module is not under `src/`;
per the spec each declared error kind exposes the HTTP status code it
corresponds to as a class-level constant (`http_code`).  `name`
distinguishes the kinds. -/
structure ErrKind where
  http_code : Nat
  name : String
deriving DecidableEq, Repr

/-- One step of Python dict construction: insert key `k` with value `v`,
overwriting the value of an existing entry for `k` in place, otherwise
appending a fresh entry. -/
def dictInsert (m : List (Nat × ErrKind)) (k : Nat) (v : ErrKind) :
    List (Nat × ErrKind) :=
  if m.any (fun p => p.1 == k) then
    m.map (fun p => bif p.1 == k then (k, v) else p)
  else m ++ [(k, v)]

/-- Model of `HttpClient.error_map` (`api.py` lines 80-90): the dict
comprehension over all declared error kinds except the base
`TraktException`.  The enumeration order of `errors.__all__` is the order
of the `kinds` list; dict comprehension semantics make a later kind with
the same `http_code` silently overwrite an earlier one. -/
def error_map (kinds : List ErrKind) : List (Nat × ErrKind) :=
  kinds.foldl (fun m err => dictInsert m err.http_code err) []

/-- Is `b` a UTF-8 continuation byte (0x80..0xBF)? -/
def isCont (b : Nat) : Bool :=
  128 ≤ b && b ≤ 191

/-- Model of Python `bytes.decode('UTF-8', 'ignore')`: strict UTF-8
decoding where the bytes of an invalid or truncated sequence are dropped
and decoding resumes at the next byte (maximal-subpart skipping), instead
of raising.  Total by construction.  The range checks on the second byte
(0xE0, 0xED, 0xF0, 0xF4 rows) exclude overlong forms, surrogates and
code points above 0x10FFFF, so every emitted code point is a valid
scalar value. -/
def utf8Ignore : List Nat → List Char
  | [] => []
  | b :: rest =>
    if b < 128 then Char.ofNat b :: utf8Ignore rest
    else if 194 ≤ b && b ≤ 223 then
      match rest with
      | [] => []
      | c1 :: t1 =>
        if isCont c1 then
          Char.ofNat ((b - 192) * 64 + (c1 - 128)) :: utf8Ignore t1
        else utf8Ignore (c1 :: t1)
    else if 224 ≤ b && b ≤ 239 then
      match rest with
      | [] => []
      | d1 :: u1 =>
        if (if b == 224 then 160 ≤ d1 && d1 ≤ 191
            else if b == 237 then 128 ≤ d1 && d1 ≤ 159
            else isCont d1) then
          match u1 with
          | [] => []
          | d2 :: u2 =>
            if isCont d2 then
              Char.ofNat ((b - 224) * 4096 + (d1 - 128) * 64 + (d2 - 128))
                :: utf8Ignore u2
            else utf8Ignore (d2 :: u2)
        else utf8Ignore (d1 :: u1)
    else if 240 ≤ b && b ≤ 244 then
      match rest with
      | [] => []
      | e1 :: v1 =>
        if (if b == 240 then 144 ≤ e1 && e1 ≤ 191
            else if b == 244 then 128 ≤ e1 && e1 ≤ 143
            else isCont e1) then
          match v1 with
          | [] => []
          | e2 :: v2 =>
            if isCont e2 then
              match v2 with
              | [] => []
              | e3 :: v3 =>
                if isCont e3 then
                  Char.ofNat ((b - 240) * 262144 + (e1 - 128) * 4096
                      + (e2 - 128) * 64 + (e3 - 128)) :: utf8Ignore v3
                else utf8Ignore (e3 :: v3)
            else utf8Ignore (e2 :: v2)
        else utf8Ignore (e1 :: v1)
    else utf8Ignore rest
termination_by bs => bs.length
decreasing_by all_goals (simp_wf <;> omega)

/-- The text recovered from raw response bytes, as
`response.content.decode('UTF-8', 'ignore')` produces it. -/
def recoverText (bytes : List Nat) : String :=
  String.mk (utf8Ignore bytes)

/-- JSON whitespace, as `json.loads` skips it. -/
def isWs (c : Char) : Bool :=
  c == Char.ofNat 32 || c == Char.ofNat 9 || c == Char.ofNat 10 || c == Char.ofNat 13

/-- Drop leading JSON whitespace. -/
def skipWs : List Char → List Char
  | [] => []
  | c :: cs => if isWs c then skipWs cs else c :: cs

/-- Value of a hexadecimal digit, if `c` is one. -/
def hexVal (c : Char) : Option Nat :=
  if 48 ≤ c.toNat && c.toNat ≤ 57 then some (c.toNat - 48)
  else if 97 ≤ c.toNat && c.toNat ≤ 102 then some (c.toNat - 87)
  else if 65 ≤ c.toNat && c.toNat ≤ 70 then some (c.toNat - 55)
  else none

/-- Parse the body of a JSON string after the opening quote, returning the
decoded characters and the remaining input.  Models the strict
`json.loads` string scanner: closes on an unescaped quote, rejects raw
control characters, supports the standard backslash escapes and
backslash-u code units (modelling simplification: a backslash-u surrogate
half is not paired with its successor). -/
def parseStrChars : List Char → Except String (List Char × List Char)
  | [] => .error "Unterminated string starting at"
  | c :: cs =>
    if c = Char.ofNat 34 then .ok ([], cs)
    else if c = Char.ofNat 92 then
      match cs with
      | [] => .error "Unterminated string starting at"
      | e :: cs2 =>
        if e = Char.ofNat 34 then
          (parseStrChars cs2).map (fun p => (Char.ofNat 34 :: p.1, p.2))
        else if e = Char.ofNat 92 then
          (parseStrChars cs2).map (fun p => (Char.ofNat 92 :: p.1, p.2))
        else if e = Char.ofNat 47 then
          (parseStrChars cs2).map (fun p => (Char.ofNat 47 :: p.1, p.2))
        else if e = Char.ofNat 98 then
          (parseStrChars cs2).map (fun p => (Char.ofNat 8 :: p.1, p.2))
        else if e = Char.ofNat 102 then
          (parseStrChars cs2).map (fun p => (Char.ofNat 12 :: p.1, p.2))
        else if e = Char.ofNat 110 then
          (parseStrChars cs2).map (fun p => (Char.ofNat 10 :: p.1, p.2))
        else if e = Char.ofNat 114 then
          (parseStrChars cs2).map (fun p => (Char.ofNat 13 :: p.1, p.2))
        else if e = Char.ofNat 116 then
          (parseStrChars cs2).map (fun p => (Char.ofNat 9 :: p.1, p.2))
        else if e = Char.ofNat 117 then
          match cs2 with
          | h1 :: h2 :: h3 :: h4 :: cs3 =>
            match hexVal h1, hexVal h2, hexVal h3, hexVal h4 with
            | some a, some b, some c2, some d =>
              (parseStrChars cs3).map
                (fun p => (Char.ofNat (a * 4096 + b * 256 + c2 * 16 + d) :: p.1, p.2))
            | _, _, _, _ => .error "Invalid \\uXXXX escape"
          | _ => .error "Invalid \\uXXXX escape"
        else .error "Invalid \\escape"
    else if c.toNat < 32 then .error "Invalid control character"
    else (parseStrChars cs).map (fun p => (c :: p.1, p.2))
termination_by cs => cs.length
decreasing_by all_goals (simp_wf <;> omega)

/-- Longest leading run of decimal digits. -/
def takeDigits : List Char → List Char × List Char
  | [] => ([], [])
  | c :: cs =>
    if c.isDigit then
      let p := takeDigits cs
      (c :: p.1, p.2)
    else ([], c :: cs)

/-- Integer part of a JSON number: a lone `0`, or a nonzero digit followed
by digits (the leading-zero rule of the JSON grammar that Python's
number regex enforces). -/
def parseIntPart : List Char → Option (List Char × List Char)
  | [] => none
  | c :: cs =>
    if c = Char.ofNat 48 then some ([c], cs)
    else if c.isDigit then
      let p := takeDigits cs
      some (c :: p.1, p.2)
    else none

/-- Optional fraction part `.digits`; consumes nothing when the dot is not
followed by a digit (the regex simply stops, as in Python). -/
def parseFracPart (cs : List Char) : List Char × List Char :=
  match cs with
  | c :: d :: r =>
    if c = Char.ofNat 46 && d.isDigit then
      let p := takeDigits (d :: r)
      (c :: p.1, p.2)
    else ([], cs)
  | _ => ([], cs)

/-- Optional exponent part `[eE][+-]?digits`; consumes nothing unless the
whole form matches. -/
def parseExpPart (cs : List Char) : List Char × List Char :=
  match cs with
  | e :: r =>
    if e = Char.ofNat 101 || e = Char.ofNat 69 then
      let sp : List Char × List Char :=
        match r with
        | s :: rr => if s = Char.ofNat 43 || s = Char.ofNat 45 then ([s], rr) else ([], r)
        | [] => ([], r)
      let dp := takeDigits sp.2
      if dp.1.isEmpty then ([], cs) else (e :: (sp.1 ++ dp.1), dp.2)
    else ([], cs)
  | [] => ([], cs)

/-- Does `pre` occur as the initial segment of `cs`? -/
def startsWith : List Char → List Char → Bool
  | [], _ => true
  | _, [] => false
  | p :: ps, c :: cs => p == c && startsWith ps cs

/-- Parse a JSON number (or the Python-accepted constants `Infinity` /
`-Infinity`) starting at `cs`, keeping the matched lexeme as the literal
of a `Json.num`. -/
def parseNumber (cs : List Char) : Except String (Json × List Char) :=
  let sign : List Char × List Char :=
    match cs with
    | c :: r => if c = Char.ofNat 45 then ([c], r) else ([], cs)
    | [] => ([], cs)
  if sign.1 ≠ [] && startsWith "Infinity".toList sign.2 then
    .ok (.num "-Infinity", sign.2.drop 8)
  else
    match parseIntPart sign.2 with
    | none => .error "Expecting value"
    | some (ip, r1) =>
      let fp := parseFracPart r1
      let ep := parseExpPart fp.2
      .ok (.num (String.mk (sign.1 ++ ip ++ fp.1 ++ ep.1)), ep.2)

mutual

/-- Fueled recursive-descent value parser modelling Python's
`json.loads` scanner.  Leading whitespace is skipped; the fuel only
bounds recursion depth and `json_loads` supplies more than any input can
consume. -/
def parseValue : Nat → List Char → Except String (Json × List Char)
  | 0, _ => .error "Recursion limit exceeded"
  | fuel + 1, input =>
    match skipWs input with
    | [] => .error "Expecting value"
    | c :: cs =>
      if c = Char.ofNat 34 then
        (parseStrChars cs).map (fun p => (.str (String.mk p.1), p.2))
      else if c = Char.ofNat 91 then
        match skipWs cs with
        | d :: ds =>
          if d = Char.ofNat 93 then .ok (.arr [], ds)
          else (parseItems fuel (d :: ds)).map (fun p => (.arr p.1, p.2))
        | [] => .error "Expecting value"
      else if c = Char.ofNat 123 then
        match skipWs cs with
        | d :: ds =>
          if d = Char.ofNat 125 then .ok (.obj [], ds)
          else (parseFields fuel (d :: ds)).map (fun p => (.obj p.1, p.2))
        | [] => .error "Expecting property name enclosed in double quotes"
      else if c = Char.ofNat 116 then
        if startsWith "rue".toList cs then .ok (.bool true, cs.drop 3)
        else .error "Expecting value"
      else if c = Char.ofNat 102 then
        if startsWith "alse".toList cs then .ok (.bool false, cs.drop 4)
        else .error "Expecting value"
      else if c = Char.ofNat 110 then
        if startsWith "ull".toList cs then .ok (.null, cs.drop 3)
        else .error "Expecting value"
      else if c = Char.ofNat 78 then
        if startsWith "aN".toList cs then .ok (.num "NaN", cs.drop 2)
        else .error "Expecting value"
      else if c = Char.ofNat 73 then
        if startsWith "nfinity".toList cs then .ok (.num "Infinity", cs.drop 7)
        else .error "Expecting value"
      else parseNumber (c :: cs)

/-- Items of a nonempty array, positioned at the first item. -/
def parseItems : Nat → List Char → Except String (List Json × List Char)
  | 0, _ => .error "Recursion limit exceeded"
  | fuel + 1, input => do
    let (v, r) ← parseValue fuel input
    match skipWs r with
    | s :: r2 =>
      if s = Char.ofNat 44 then
        (parseItems fuel r2).map (fun p => (v :: p.1, p.2))
      else if s = Char.ofNat 93 then .ok ([v], r2)
      else .error "Expecting comma delimiter"
    | [] => .error "Expecting comma delimiter"

/-- Fields of a nonempty object, positioned at the first key. -/
def parseFields : Nat → List Char → Except String (List (String × Json) × List Char)
  | 0, _ => .error "Recursion limit exceeded"
  | fuel + 1, input =>
    match input with
    | c :: cs =>
      if c = Char.ofNat 34 then do
        let (k, r1) ← parseStrChars cs
        match skipWs r1 with
        | d :: r2 =>
          if d = Char.ofNat 58 then do
            let (v, r3) ← parseValue fuel r2
            match skipWs r3 with
            | s :: r4 =>
              if s = Char.ofNat 44 then
                (parseFields fuel (skipWs r4)).map
                  (fun p => ((String.mk k, v) :: p.1, p.2))
              else if s = Char.ofNat 125 then .ok ([(String.mk k, v)], r4)
              else .error "Expecting comma delimiter"
            | [] => .error "Expecting comma delimiter"
          else .error "Expecting colon delimiter"
        | [] => .error "Expecting colon delimiter"
      else .error "Expecting property name enclosed in double quotes"
    | [] => .error "Expecting property name enclosed in double quotes"

end

/-- Model of Python `json.loads`: decode one JSON value from `s`, requiring
only whitespace after it.  The fuel bound `2 * length + 2` exceeds the
recursion any input of this length can trigger. -/
def json_loads (s : String) : Except String Json :=
  match parseValue (2 * s.toList.length + 2) s.toList with
  | .error e => .error e
  | .ok (v, rest) =>
    if (skipWs rest).isEmpty then .ok v else .error "Extra data"

/-- An opaque credential value, as produced by the credential provider
(`TokenAuth` in the source); the dispatcher only stores and forwards it. -/
structure Auth where
  token : String
deriving DecidableEq, Repr

/-- A raw HTTP response as the dispatch pipeline consumes it: status code
and body bytes (`response.status_code`, `response.content`). -/
structure Response where
  status_code : Nat
  content : List Nat
deriving DecidableEq, Repr

/-- The outgoing request handed to `self.session.request(...)`: method,
absolute url, headers, optional auth, and either query parameters
(`params=...`, GET) or a serialized text body (`data=...`, non-GET). -/
structure OutgoingRequest where
  method : String
  url : String
  headers : List (String × String)
  auth : Option Auth
  params : Option Json
  body : Option String
deriving Repr

/-- An exception the client layer can raise: a registered error kind
constructed on the response (`self.error_map[status](response)`), or the
`BadResponseException` of `decode_response`. -/
inductive TraktError where
  | httpError (kind : ErrKind) (response : Response) : TraktError
  | badResponse (msg : String) : TraktError
deriving DecidableEq, Repr

/-- The class-level default headers of `HttpClient`. -/
def defaultHeaders : List (String × String) :=
  [("Content-Type", "application/json"), ("trakt-api-version", "2")]

/-- The `HttpClient` instance state: `base_url` and `session` from
`__init__`, plus the mutable `auth` slot (initially `None`).  The session
is modelled as the function from an outgoing request to the raw response
the transport produces for it. -/
structure HttpClient where
  base_url : String
  session : OutgoingRequest → Response
  auth : Option Auth

/-- `HttpClient.__init__(base_url, session)`: stores both and sets
`self.auth = None`. -/
def HttpClient.init (base_url : String) (session : OutgoingRequest → Response) :
    HttpClient :=
  { base_url := base_url, session := session, auth := none }

/-- `HttpClient.set_auth(auth)`: replaces the stored credential. -/
def set_auth (c : HttpClient) (auth : Option Auth) : HttpClient :=
  { c with auth := auth }

/-- `HttpClient.decode_response` (`api.py` lines 69-74):
`json.loads(response.content.decode('UTF-8', 'ignore'))`, re-raising a
`JSONDecodeError` as `BadResponseException(f"Unable to parse JSON: {e}")`. -/
def decode_response (response : Response) : Except TraktError Json :=
  match json_loads (recoverText response.content) with
  | .ok v => .ok v
  | .error e => .error (.badResponse ("Unable to parse JSON: " ++ e))

/-- `HttpClient.raise_if_needed` (`api.py` lines 76-78): raise
`error_map[status_code](response)` when the status code is a key of the
error map, otherwise return normally. -/
def raise_if_needed (kinds : List ErrKind) (response : Response) :
    Except TraktError Unit :=
  match (error_map kinds).lookup response.status_code with
  | some err => .error (.httpError err response)
  | none => .ok ()

/-- Lines 63-67 of `request`: the response-handling tail.  Status 204
returns `None` immediately; otherwise `raise_if_needed`, then
`decode_response`. -/
def handle_response (kinds : List ErrKind) (response : Response) :
    Except TraktError (Option Json) :=
  if response.status_code == 204 then .ok none
  else
    match raise_if_needed kinds response with
    | .error e => .error e
    | .ok () =>
      match decode_response response with
      | .error e => .error e
      | .ok v => .ok (some v)

/-- `HttpClient.request` (`api.py` lines 42-67).  `kinds` is the list of
error kinds the `error_map` property enumerates from `trakt.errors`
(modelled as a parameter because `trakt/errors.py` is not under `src/`).
GET passes the payload as `params` with no body; every other method
passes `json.dumps(data)` as the body with no params. -/
def request (c : HttpClient) (kinds : List ErrKind) (method url : String)
    (data : Option Json := none) : Except TraktError (Option Json) :=
  let url := c.base_url ++ url
  let response :=
    if method == "get" then
      c.session { method := method, url := url, headers := defaultHeaders,
                  auth := c.auth, params := data, body := none }
    else
      c.session { method := method, url := url, headers := defaultHeaders,
                  auth := c.auth, params := none, body := some (json_dumps data) }
  handle_response kinds response

/-- `HttpClient.get`. -/
def get (c : HttpClient) (kinds : List ErrKind) (url : String) :
    Except TraktError (Option Json) :=
  request c kinds "get" url

/-- `HttpClient.delete`: dispatches and discards the result (the Python
method has no `return`, so it evaluates to `None` whenever `request` does
not raise). -/
def delete (c : HttpClient) (kinds : List ErrKind) (url : String) :
    Except TraktError Unit :=
  (request c kinds "delete" url).map (fun _ => ())

/-- `HttpClient.post`. -/
def post (c : HttpClient) (kinds : List ErrKind) (url : String) (data : Option Json) :
    Except TraktError (Option Json) :=
  request c kinds "post" url data

/-- `HttpClient.put`. -/
def put (c : HttpClient) (kinds : List ErrKind) (url : String) (data : Option Json) :
    Except TraktError (Option Json) :=
  request c kinds "put" url data

/-- The outgoing request `request` hands to the session, factored out for
stating theorems about what is transmitted. -/
def outgoing (c : HttpClient) (method url : String) (data : Option Json) :
    OutgoingRequest :=
  if method == "get" then
    { method := method, url := c.base_url ++ url, headers := defaultHeaders,
      auth := c.auth, params := data, body := none }
  else
    { method := method, url := c.base_url ++ url, headers := defaultHeaders,
      auth := c.auth, params := none, body := some (json_dumps data) }

/-- The last error kind in declaration order carrying a given status code:
the kind that Python dict-comprehension semantics leave in the map when
several kinds collide on a code. -/
def lastDeclared (kinds : List ErrKind) (code : Nat) : Option ErrKind :=
  kinds.reverse.find? (fun k => k.http_code == code)

/-- `request` is the response-handling tail applied to the session's
response for exactly the `outgoing` request. -/
theorem request_eq (c : HttpClient) (kinds : List ErrKind) (method url : String)
    (data : Option Json) :
    request c kinds method url data =
      handle_response kinds (c.session (outgoing c method url data)) := by
  unfold request outgoing
  by_cases h : method == "get" <;> simp [h]

/-- Overwriting the entries keyed `k` does not affect lookups of another
key. -/
theorem lookup_map_overwrite_ne (m : List (Nat × ErrKind)) (k : Nat) (v : ErrKind)
    (code : Nat) (h : code ≠ k) :
    List.lookup code (m.map (fun p => bif p.1 == k then (k, v) else p)) =
      List.lookup code m := by
  induction m with
  | nil => rfl
  | cons p t ih =>
    obtain ⟨pk, pv⟩ := p
    simp only [List.map_cons]
    cases hp : pk == k with
    | true =>
      have hpk : pk = k := by simpa using hp
      have h1 : (code == k) = false := by simp [h]
      have h2 : (code == pk) = false := by simp [hpk, h]
      simp only [hp, cond_true, List.lookup_cons]
      simp [h1, h2, ih]
    | false =>
      simp only [hp, cond_false, List.lookup_cons]
      cases hc : code == pk <;> simp [hc, ih]

/-- If some entry of `m` is keyed `k`, overwriting makes `k` look up to the
new value. -/
theorem lookup_map_overwrite_hit (m : List (Nat × ErrKind)) (k : Nat) (v : ErrKind)
    (h : m.any (fun p => p.1 == k) = true) :
    List.lookup k (m.map (fun p => bif p.1 == k then (k, v) else p)) = some v := by
  induction m with
  | nil => simp at h
  | cons p t ih =>
    obtain ⟨pk, pv⟩ := p
    simp only [List.map_cons]
    cases hp : pk == k with
    | true =>
      simp only [hp, cond_true, List.lookup_cons]
      simp
    | false =>
      have hpk : ¬ pk = k := by simpa using hp
      have ht : t.any (fun p => p.1 == k) = true := by
        simpa [hp] using h
      have hk : (k == pk) = false := by simp [Ne.symm hpk]
      simp only [hp, cond_false, List.lookup_cons]
      simp [hk, ih ht]

/-- A key that no entry carries looks up to `none`. -/
theorem lookup_absent (m : List (Nat × ErrKind)) (k : Nat)
    (h : m.any (fun p => p.1 == k) = false) :
    List.lookup k m = none := by
  induction m with
  | nil => rfl
  | cons p t ih =>
    obtain ⟨pk, pv⟩ := p
    simp only [List.any_cons, Bool.or_eq_false_iff] at h
    have hk : (k == pk) = false := by
      rcases h with ⟨h1, _⟩
      simp only [beq_eq_false_iff_ne] at h1 ⊢
      exact Ne.symm h1
    simp [List.lookup_cons, hk, ih h.2]

/-- Lookup in a map extended on the right by a single entry. -/
theorem lookup_append_single (m : List (Nat × ErrKind)) (k : Nat) (v : ErrKind)
    (code : Nat) :
    List.lookup code (m ++ [(k, v)]) =
      (List.lookup code m).or (if code == k then some v else none) := by
  induction m with
  | nil =>
    cases hc : code == k <;> simp [List.lookup_cons, hc]
  | cons p t ih =>
    obtain ⟨pk, pv⟩ := p
    cases hc : code == pk <;> simp [List.lookup_cons, hc, ih]

/-- Lookup after one Python dict insertion: the inserted key now maps to
the inserted value, all other keys are untouched. -/
theorem dictInsert_lookup (m : List (Nat × ErrKind)) (k : Nat) (v : ErrKind)
    (code : Nat) :
    List.lookup code (dictInsert m k v) =
      if code = k then some v else List.lookup code m := by
  unfold dictInsert
  cases hany : m.any (fun p => p.1 == k) with
  | true =>
    rw [if_pos rfl]
    by_cases hc : code = k
    · subst hc
      simp [lookup_map_overwrite_hit m code v hany]
    · simp [lookup_map_overwrite_ne m k v code hc, hc]
  | false =>
    rw [if_neg (by simp), lookup_append_single]
    by_cases hc : code = k
    · subst hc
      simp [lookup_absent m code hany]
    · have hck : (code == k) = false := by simp [hc]
      simp [hck, hc]

/-- Lookup through the dict comprehension, with an arbitrary starting
accumulator: the last declared kind with the code wins, and only when no
kind carries the code does the accumulator answer. -/
theorem errorMapFold_lookup (kinds : List ErrKind) (m : List (Nat × ErrKind))
    (code : Nat) :
    List.lookup code (kinds.foldl (fun m err => dictInsert m err.http_code err) m) =
      (lastDeclared kinds code).or (List.lookup code m) := by
  induction kinds generalizing m with
  | nil => simp [lastDeclared]
  | cons k ks ih =>
    have hlast : lastDeclared (k :: ks) code =
        (lastDeclared ks code).or (if k.http_code == code then some k else none) := by
      simp only [lastDeclared, List.reverse_cons, List.find?_append]
      cases h : k.http_code == code <;> simp [List.find?_cons, h]
    simp only [List.foldl_cons, ih, hlast, dictInsert_lookup]
    cases hl : lastDeclared ks code with
    | some e => simp
    | none =>
      by_cases hc : code = k.http_code
      · have : (k.http_code == code) = true := by simp [hc]
        simp [this, hc]
      · have : (k.http_code == code) = false := by simp [Ne.symm hc]
        simp [this, hc]

/-- `dictInsert` preserves distinctness of the keys. -/
theorem dictInsert_keys_nodup (m : List (Nat × ErrKind)) (k : Nat) (v : ErrKind)
    (h : (m.map Prod.fst).Nodup) : ((dictInsert m k v).map Prod.fst).Nodup := by
  unfold dictInsert
  cases hany : m.any (fun p => p.1 == k) with
  | true =>
    rw [if_pos rfl]
    have heq : (m.map (fun p => bif p.1 == k then (k, v) else p)).map Prod.fst =
        m.map Prod.fst := by
      simp only [List.map_map]
      apply List.map_congr_left
      intro p _
      cases hp : p.1 == k with
      | true =>
        have : p.1 = k := by simpa using hp
        simp [hp, this]
      | false => simp [hp]
    rw [heq]; exact h
  | false =>
    rw [if_neg (by simp)]
    simp only [List.map_append, List.map_cons, List.map_nil]
    apply List.Nodup.append h (List.nodup_singleton k)
    intro a ha hb
    simp only [List.mem_singleton] at hb
    subst hb
    simp only [List.mem_map] at ha
    rcases ha with ⟨p, hp, hpa⟩
    have hne := List.any_eq_false.mp hany p hp
    exact hne (beq_iff_eq.mpr hpa)

/-- The keys of the folded dict stay distinct. -/
theorem errorMapFold_keys_nodup (kinds : List ErrKind) (m : List (Nat × ErrKind))
    (h : (m.map Prod.fst).Nodup) :
    (((kinds.foldl (fun m err => dictInsert m err.http_code err) m)).map Prod.fst).Nodup := by
  induction kinds generalizing m with
  | nil => exact h
  | cons k ks ih => exact ih _ (dictInsert_keys_nodup m k.http_code k h)

/-- Claim C1: for every dispatched call whose response status code is a key
of the error map and is not 204, `request` raises exactly the error kind
registered for that status code, constructed on the response.  The session
(and hence the response body) is universally quantified and the result
never consults `decode_response`, so error responses are never
body-decoded: the registry check comes first. -/
theorem registered_status_raises (c : HttpClient) (kinds : List ErrKind)
    (method url : String) (data : Option Json) (err : ErrKind)
    (h204 : (c.session (outgoing c method url data)).status_code ≠ 204)
    (hreg : (error_map kinds).lookup
        (c.session (outgoing c method url data)).status_code = some err) :
    request c kinds method url data =
      .error (.httpError err (c.session (outgoing c method url data))) := by
  rw [request_eq]
  unfold handle_response raise_if_needed
  rw [if_neg (by simpa using h204)]
  simp only [hreg]

/-- Claim C1 witness: a 404 response with an undecodable body raises the
registered kind. -/
theorem registered_status_raises_witness :
    request
        { base_url := "https://api.trakt.tv",
          session := fun _ => { status_code := 404, content := [110, 111, 116] },
          auth := none }
        [{ http_code := 404, name := "NotFoundException" }] "get" "/shows" none =
      .error (.httpError { http_code := 404, name := "NotFoundException" }
        { status_code := 404, content := [110, 111, 116] }) :=
  registered_status_raises _ _ _ _ _ _ (by decide) (by decide)

/-- Claim C2: a 204 response makes `request` return `None` immediately, for
every response body (the session, and with it the body, is arbitrary) and
for every registered error map — even one with a kind registered on 204 —
so no decoding happens and no error is raised: the 204 check precedes the
registry check. -/
theorem status_204_returns_none (c : HttpClient) (kinds : List ErrKind)
    (method url : String) (data : Option Json)
    (h : (c.session (outgoing c method url data)).status_code = 204) :
    request c kinds method url data = .ok none := by
  rw [request_eq]
  unfold handle_response
  rw [if_pos (by simpa using h)]

/-- Claim C2 witness: status 204 with a non-empty, non-JSON body and a kind
registered on 204 still yields `None`. -/
theorem status_204_returns_none_witness :
    request
        { base_url := "https://api.trakt.tv",
          session := fun _ => { status_code := 204, content := [110, 111, 116] },
          auth := none }
        [{ http_code := 204, name := "Phantom" }] "get" "/x" none = .ok none :=
  status_204_returns_none _ _ _ _ _ (by decide)

/-- Claim C3: a response whose status is neither 204 nor a key of the error
map — any such status, 2xx or not — makes `request` JSON-decode the body
exactly as on the success path, with no error from the registry lookup. -/
theorem unmapped_status_falls_through (c : HttpClient) (kinds : List ErrKind)
    (method url : String) (data : Option Json)
    (h204 : (c.session (outgoing c method url data)).status_code ≠ 204)
    (hreg : (error_map kinds).lookup
        (c.session (outgoing c method url data)).status_code = none) :
    request c kinds method url data =
      (decode_response (c.session (outgoing c method url data))).map some := by
  rw [request_eq]
  unfold handle_response raise_if_needed
  rw [if_neg (by simpa using h204)]
  simp only [hreg]
  cases hd : decode_response (c.session (outgoing c method url data)) <;>
    simp [Except.map]

/-- Claim C3 witness: an unregistered 500 passes its body to the decoder on
the success path. -/
theorem unmapped_status_falls_through_witness :
    request
        { base_url := "https://api.trakt.tv",
          session := fun _ => { status_code := 500, content := [91, 49, 93] },
          auth := none }
        [{ http_code := 404, name := "NotFoundException" }] "get" "/x" none =
      (decode_response { status_code := 500, content := [91, 49, 93] }).map some :=
  unmapped_status_falls_through _ _ _ _ _ (by decide) (by decide)

/-- Claim C4: `decode_response` first recovers text from the raw bytes by
lenient UTF-8 decoding (`recoverText`, total, so bad encoding never
fails), then parses that text as JSON; the outcome is fully determined by
the parse: the parsed value on success, and otherwise a `badResponse`
error carrying the parse diagnostic — the only error the decoder can
produce. -/
theorem decode_response_utf8_then_json (response : Response) :
    (∃ v, json_loads (recoverText response.content) = .ok v ∧
        decode_response response = .ok v) ∨
    (∃ e, json_loads (recoverText response.content) = .error e ∧
        decode_response response =
          .error (.badResponse ("Unable to parse JSON: " ++ e))) := by
  cases h : json_loads (recoverText response.content) with
  | ok v => exact .inl ⟨v, rfl, by simp [decode_response, h]⟩
  | error e => exact .inr ⟨e, rfl, by simp [decode_response, h]⟩

/-- Claim C5: a GET payload travels as query parameters and never as a
body; a POST or PUT payload travels as a serialized JSON text body and
never as query parameters; and `request` hands the session exactly the
`outgoing` request so built. -/
theorem payload_placement_by_method (c : HttpClient) (url : String) (data : Json) :
    (outgoing c "get" url (some data)).params = some data ∧
    (outgoing c "get" url (some data)).body = none ∧
    (outgoing c "post" url (some data)).params = none ∧
    (outgoing c "post" url (some data)).body = some (json_dumps (some data)) ∧
    (outgoing c "put" url (some data)).params = none ∧
    (outgoing c "put" url (some data)).body = some (json_dumps (some data)) ∧
    (∀ kinds method, request c kinds method url (some data) =
        handle_response kinds (c.session (outgoing c method url (some data)))) :=
  ⟨rfl, rfl, rfl, rfl, rfl, rfl, fun kinds method => request_eq c kinds method url (some data)⟩

/-- Claim C6 counterexample: the outgoing request of a `delete` call does
have a body — the JSON text `null` — and a session that answers 204 only
to requests whose body is exactly that text (500, a registered error,
otherwise) sees `delete` succeed, so the dispatched request really
carried it. -/
theorem delete_body_not_absent_cex :
    (outgoing
        { base_url := "https://api.trakt.tv",
          session := fun r =>
            if r.body == some "null" then { status_code := 204, content := [] }
            else { status_code := 500, content := [] },
          auth := none } "delete" "/sync/history" none).body = some "null" ∧
    delete
        { base_url := "https://api.trakt.tv",
          session := fun r =>
            if r.body == some "null" then { status_code := 204, content := [] }
            else { status_code := 500, content := [] },
          auth := none }
        [{ http_code := 500, name := "ServerError" }] "/sync/history" = .ok () := by
  exact ⟨rfl, rfl⟩

/-- Claim C6 amended: every `delete` call dispatches with an absent payload
(`data = None`), whose serialization makes the outgoing body the JSON text
`null` rather than no body at all; and `delete(path)` always returns
`None`, discarding whatever value the dispatch produced. -/
theorem delete_discards_and_sends_null (c : HttpClient) (kinds : List ErrKind)
    (url : String) :
    delete c kinds url = (request c kinds "delete" url none).map (fun _ => ()) ∧
    json_dumps none = "null" ∧
    (outgoing c "delete" url none).body = some "null" :=
  ⟨rfl, rfl, rfl⟩

/-- Claim C7: the absolute URL of every dispatched call is the plain string
concatenation `base_url ++ path`, with no separator inserted and neither
part normalized; `request` hands the session exactly that request. -/
theorem url_is_plain_concatenation (c : HttpClient) (kinds : List ErrKind)
    (method url : String) (data : Option Json) :
    (outgoing c method url data).url = c.base_url ++ url ∧
    request c kinds method url data =
      handle_response kinds (c.session (outgoing c method url data)) := by
  constructor
  · unfold outgoing
    by_cases h : method == "get" <;> simp [h]
  · exact request_eq c kinds method url data

/-- Claim C8 counterexample: building the error map from two kinds that
both declare status 400 is not rejected — it silently yields a map in
which the later kind owns the code and the earlier one is gone. -/
theorem error_map_collision_not_rejected_cex :
    error_map [{ http_code := 400, name := "BadRequestA" },
               { http_code := 400, name := "BadRequestB" }] =
      [(400, { http_code := 400, name := "BadRequestB" })] ∧
    ({ http_code := 400, name := "BadRequestA" } : ErrKind) ≠
      { http_code := 400, name := "BadRequestB" } :=
  ⟨rfl, by decide⟩

/-- Claim C8 amended: the registry construction contains no assertion; dict
semantics alone guarantee that the built map assigns each status code to
at most one kind (its keys are pairwise distinct), the kind declared last
for that code — a collision is silently resolved last-wins, not rejected. -/
theorem error_map_silent_last_wins (kinds : List ErrKind) (code : Nat) :
    (error_map kinds).lookup code = lastDeclared kinds code ∧
    ((error_map kinds).map Prod.fst).Nodup := by
  constructor
  · have h := errorMapFold_lookup kinds [] code
    simpa [error_map] using h
  · exact errorMapFold_keys_nodup kinds [] (by simp)

/-- Claim C9: `set_auth` replaces only the credential: base URL and session
are untouched; a dispatch after the replacement attaches the new
credential while a dispatch on the unreplaced client attaches the old
one (each dispatch reads the credential current when it executes), and
the headers attached are identical before and after. -/
theorem set_auth_frame_and_per_dispatch_read (c : HttpClient) (a : Option Auth)
    (kinds : List ErrKind) (method url : String) (data : Option Json) :
    (set_auth c a).base_url = c.base_url ∧
    (set_auth c a).session = c.session ∧
    (outgoing (set_auth c a) method url data).auth = a ∧
    (outgoing c method url data).auth = c.auth ∧
    (outgoing (set_auth c a) method url data).headers =
      (outgoing c method url data).headers ∧
    request (set_auth c a) kinds method url data =
      handle_response kinds (c.session (outgoing (set_auth c a) method url data)) := by
  refine ⟨rfl, rfl, ?_, ?_, ?_, ?_⟩
  · unfold outgoing
    by_cases h : method == "get" <;> simp [h, set_auth]
  · unfold outgoing
    by_cases h : method == "get" <;> simp [h]
  · unfold outgoing
    by_cases h : method == "get" <;> simp [h]
  · exact request_eq (set_auth c a) kinds method url data

/-- Claim C10: every non-GET dispatch with an absent payload — `delete`
among them, which always dispatches `"delete"` with `data = None` — sends
the four-character JSON text `null` as the outgoing body, not an absent
body. -/
theorem absent_payload_serializes_to_null_text (c : HttpClient)
    (kinds : List ErrKind) (method url : String) (h : method ≠ "get") :
    (outgoing c method url none).body = some "null" ∧
    delete c kinds url = (request c kinds "delete" url none).map (fun _ => ()) ∧
    (outgoing c "delete" url none).body = some "null" := by
  refine ⟨?_, rfl, rfl⟩
  unfold outgoing
  rw [if_neg (by simpa using h)]
  rfl

/-- Claim C10 witness: a POST with no payload carries the body `null`. -/
theorem absent_payload_serializes_to_null_text_witness :
    ("post" ≠ "get") ∧
    (outgoing
        { base_url := "https://api.trakt.tv",
          session := fun _ => { status_code := 204, content := [] },
          auth := none } "post" "/x" none).body = some "null" :=
  ⟨by decide,
   (absent_payload_serializes_to_null_text
      { base_url := "https://api.trakt.tv",
        session := fun _ => { status_code := 204, content := [] },
        auth := none } [] "post" "/x" (by decide)).1⟩

end PyTrakt
